import Mathlib

/-!
# nomad-check: a monitoring check that submits a Nomad job and polls its allocations

A shallow embedding of `main.go`.  The program is a straight line of calls to
external collaborators (the Nomad API client, the job-spec parser, the file
system, the clock) followed by one polling loop, and it ends by calling
`os.Exit` from inside the report helper.  The embedding keeps that shape:

* the answers of the external collaborators are the fields of `Env`;
* a run is a function from the log of events so far to a `Res`, which is either
  a normal return, a call of `os.Exit`, a run-time panic, or a loop that was
  still running when the iteration budget ran out;
* `fmt.Sprintf` is embedded for the verbs the program uses (`%s`, `%v`, `%%`).
-/

namespace NomadCheck

/-! ## Data model -/

/-- Exit code constant `OK`. -/
def OK : Int := 0
/-- Exit code constant `WARNING`. -/
def WARNING : Int := 1
/-- Exit code constant `CRITICAL`. -/
def CRITICAL : Int := 2
/-- Exit code constant `UNKNOWN`. -/
def UNKNOWN : Int := 3

/-- The struct `Config` filled by `parseConfig` from the command line. -/
structure Config where
  Addr : String
  TLSCert : String
  TLSKey : String
  TLSCACert : String
  TLSInsecure : Bool
  Timeout : Int
  JobFilePath : String
  CheckOnly : String
deriving DecidableEq, Repr

/-- The struct `Icinga` (it has no fields). -/
structure Icinga where
deriving DecidableEq, Repr

/-- A non-nil Go `error`: the name of its dynamic type and the text returned by
its `Error()` method.  The Go interface type `error` is `Option Error`, with
`none` for `nil`. -/
structure Error where
  typ : String
  msg : String
deriving DecidableEq, Repr

/-- The fields of `api.TLSConfig` that the program sets; every other field of
the library struct keeps its zero value. -/
structure TLSConfig where
  CACert : String
  ClientCert : String
  ClientKey : String
  Insecure : Bool
deriving DecidableEq, Repr

/-- The fields of `api.Config` that the program touches.  `TLSConfig` is a
pointer in Go, hence an `Option`. -/
structure ApiConfig where
  Address : String
  TLSConfig : Option TLSConfig
deriving DecidableEq, Repr

/-- A handle `*api.Client`, identified by the configuration it was built from. -/
structure Client where
  cfg : ApiConfig
deriving DecidableEq, Repr

/-- The part of `api.Job` the program reads: the job identifier (`*job.ID`).
`jobspec.Parse` sets the identifier on every job it returns. -/
structure Job where
  ID : String
deriving DecidableEq, Repr

/-- The part of `api.AllocationListStub` the program reads.  An allocation list
is a slice of pointers to such records, a `List (Option Allocation)`. -/
structure Allocation where
  JobID : String
  ClientStatus : String
deriving DecidableEq, Repr

/-- An operand passed through `a ...interface{}`: a string, a non-nil `error`,
or the nil interface value (which is what a nil `error` becomes when it is
converted to `interface{}`). -/
inductive Value where
  | str (s : String)
  | err (e : Error)
  | nil
deriving DecidableEq, Repr

/-- Conversion of a Go `error` to `interface{}`. -/
def Value.ofError : Option Error → Value
  | some e => Value.err e
  | none => Value.nil

/-- The type assertion `v.(error)` in its two-result form `err, isError`.
It succeeds exactly on a value whose dynamic type implements `error`; the nil
interface value has no dynamic type, so the assertion fails on it. -/
def Value.assertError : Value → Option Error × Bool
  | Value.err e => (some e, true)
  | Value.str _ => (none, false)
  | Value.nil => (none, false)

/-! ## Events, outcomes and the run monad -/

/-- What the program does to the outside world, in order. -/
inductive Event where
  | newClient (cfg : ApiConfig)
  | filepathAbs (path : String)
  | osOpen (path : String)
  | jobspecParse (file : String)
  | fileClose (file : String)
  | deregister (jobID : String) (purge : Bool)
  | register (job : Job)
  | allocationsList
  | sleep
  | printf (s : String)
deriving DecidableEq, Repr

/-- The log of events of a run. -/
abbrev World := List Event

/-- What was written to standard output, one entry per call of `fmt.Printf`. -/
def stdout : World → List String
  | [] => []
  | Event.printf s :: w => s :: stdout w
  | _ :: w => stdout w

/-- How a piece of the program ends: it returns a value, it calls `os.Exit`,
it panics on a nil pointer, or it is still looping when the iteration budget
is used up. -/
inductive Res (α : Type) where
  | ok (a : α) (w : World)
  | exit (code : Int) (w : World)
  | panic (w : World)
  | spin (w : World)
deriving DecidableEq, Repr

/-- The log of events at the end of a piece of the program. -/
def Res.log {α : Type} : Res α → World
  | Res.ok _ w => w
  | Res.exit _ w => w
  | Res.panic w => w
  | Res.spin w => w

/-- A piece of the program: from the log so far to an outcome. -/
def Proc (α : Type) : Type := World → Res α

/-- Return without an effect. -/
def Proc.pure {α : Type} (a : α) : Proc α := fun w => Res.ok a w

/-- Sequencing: the second piece runs only if the first one returns. -/
def Proc.bind {α β : Type} (m : Proc α) (f : α → Proc β) : Proc β := fun w =>
  match m w with
  | Res.ok a w1 => f a w1
  | Res.exit code w1 => Res.exit code w1
  | Res.panic w1 => Res.panic w1
  | Res.spin w1 => Res.spin w1

instance : Monad Proc where
  pure := Proc.pure
  bind := Proc.bind

/-- Record one event. -/
def emit (e : Event) : Proc Unit := fun w => Res.ok () (w ++ [e])

/-- The call `os.Exit(code)`: the process ends here. -/
def osExit {α : Type} (code : Int) : Proc α := fun w => Res.exit code w

/-- The iteration budget is used up while the loop is still running. -/
def outOfFuel {α : Type} : Proc α := fun w => Res.spin w

/-- Dereference of a pointer: a nil pointer panics. -/
def deref {α : Type} : Option α → Proc α
  | some a => Proc.pure a
  | none => fun w => Res.panic w

/-! ## The fragment of `fmt` the program uses -/

/-- The text of an operand under `%v`. -/
def Value.text : Value → String
  | Value.str s => s
  | Value.err e => e.msg
  | Value.nil => "<nil>"

/-- The name of the dynamic type of an operand, as `fmt` prints it. -/
def Value.typeName : Value → String
  | Value.str _ => "string"
  | Value.err e => e.typ
  | Value.nil => "<nil>"

/-- One operand under one verb.  `%v` and `%s` print a string as it is and an
error through its `Error()` method; the nil interface prints as `<nil>` under
`%v` and as a bad-verb marker under `%s`.  Any other verb is outside the
fragment embedded here (the program uses none) and is rendered with the
bad-verb marker. -/
def formatOperand (verb : Char) (x : Value) : List Char :=
  if verb = 'v' then x.text.toList
  else if verb = 's' ∧ x ≠ Value.nil then x.text.toList
  else if x = Value.nil then '%' :: '!' :: verb :: "(<nil>)".toList
  else '%' :: '!' :: verb :: '(' :: (x.typeName.toList ++ '=' :: (x.text.toList ++ [')']))

/-- One operand left over when the format is exhausted: its type, an equals sign
and its text, or `<nil>` alone for the nil interface. -/
def formatExtraOperand (x : Value) : List Char :=
  if x = Value.nil then "<nil>".toList
  else x.typeName.toList ++ '=' :: x.text.toList

/-- The operands left over when the format is exhausted, separated by a comma
and a blank. -/
def formatExtra : List Value → List Char
  | [] => []
  | [x] => formatExtraOperand x
  | x :: y :: a => formatExtraOperand x ++ ", ".toList ++ formatExtra (y :: a)

/-- The scan of a format string against its operands. -/
def sprintfAux : List Char → List Value → List Char
  | [], [] => []
  | [], x :: a => "%!(EXTRA ".toList ++ formatExtra (x :: a) ++ [')']
  | c :: fs, a =>
    if c = '%' then
      match fs, a with
      | [], _ => "%!(NOVERB)".toList
      | verb :: fs1, [] =>
        if verb = '%' then '%' :: sprintfAux fs1 []
        else '%' :: '!' :: verb :: ("(MISSING)".toList ++ sprintfAux fs1 [])
      | verb :: fs1, x :: a1 =>
        if verb = '%' then '%' :: sprintfAux fs1 (x :: a1)
        else formatOperand verb x ++ sprintfAux fs1 a1
    else c :: sprintfAux fs a

/-- The function `fmt.Sprintf`. -/
def Sprintf (format : String) (a : List Value) : String :=
  String.mk (sprintfAux format.toList a)

/-- The function `fmt.Printf`: one write to standard output. -/
def Printf (format : String) (a : List Value) : Proc Unit :=
  emit (Event.printf (Sprintf format a))

/-! ## The report helper -/

/-- The function `statusToString`. -/
def statusToString (code : Int) : String :=
  if code = OK then "OK"
  else if code = WARNING then "WARNING"
  else if code = CRITICAL then "CRITICAL"
  else "UNKNOWN"

/-- The guard of `reportStatus`: there is a first operand, the type assertion
`a[0].(error)` succeeds on it, and the asserted error is nil. -/
def nilErrorOperand (a : List Value) : Bool :=
  match a with
  | [] => false
  | a0 :: _ => (Value.assertError a0).2 && (Value.assertError a0).1 == none

/-- The method `reportStatus`: when the guard holds it prints the bare level and
returns; otherwise it prints the level and the formatted message and exits with
the code. -/
def Icinga.reportStatus (_n : Icinga) (code : Int) (format : String)
    (a : List Value) : Proc Unit :=
  if nilErrorOperand a then
    Printf "%s\n" [Value.str (statusToString code)]
  else do
    let message := Sprintf format a
    Printf "%s: %s\n" [Value.str (statusToString code), Value.str message]
    osExit code

/-- The method `OK`. -/
def Icinga.OK (n : Icinga) (format : String) (a : List Value) : Proc Unit :=
  n.reportStatus NomadCheck.OK format a

/-- The method `WARNING`. -/
def Icinga.WARNING (n : Icinga) (format : String) (a : List Value) : Proc Unit :=
  n.reportStatus NomadCheck.WARNING format a

/-- The method `CRITICAL`. -/
def Icinga.CRITICAL (n : Icinga) (format : String) (a : List Value) : Proc Unit :=
  n.reportStatus NomadCheck.CRITICAL format a

/-- The method `UNKNOWN`. -/
def Icinga.UNKNOWN (n : Icinga) (format : String) (a : List Value) : Proc Unit :=
  n.reportStatus NomadCheck.UNKNOWN format a

/-! ## The external collaborators -/

/-- The answers of everything outside the program.  `List i` and `Since i` are
indexed by the iteration of the polling loop, counted from 0: `List i` is the
pair returned by `allocations.List` in iteration `i`, a slice of pointers (an
element may be nil) and an error, and `Since i` is the value of `time.Since(startTime).Seconds()` read at the start of iteration `i`
(a finite `float64` is a rational number).  A library call that returns a
pair `(value, err)` is given as an `Except`: a nil error comes with a usable
value, as the libraries document. -/
structure Env where
  DefaultConfig : ApiConfig
  NewClient : ApiConfig → Except Error Client
  Abs : String → Except Error String
  Open : String → Except Error String
  Parse : String → Except Error Job
  Deregister : String → Bool → Option Error
  Register : Job → Option Error
  List : Nat → List (Option Allocation) × Option Error
  Since : Nat → ℚ

/-- The value half of a Go result pair `(value, err)`: nil when the call failed. -/
def valueOf {α : Type} : Except Error α → Option α
  | Except.ok a => some a
  | Except.error _ => none

/-- The error half of a Go result pair `(value, err)`: nil when the call succeeded. -/
def errorOf {α : Type} : Except Error α → Option Error
  | Except.ok _ => none
  | Except.error e => some e

/-! ## The program -/

/-- The function `createNomadClient`: the library default configuration with the
address overwritten, a TLS configuration attached when both the certificate and
the key are given, handed to `api.NewClient`. -/
def createNomadClient (env : Env) (config : Config) : Proc (Except Error Client) := do
  let cfg := env.DefaultConfig
  let cfg := { cfg with Address := config.Addr }
  let cfg :=
    if config.TLSCert ≠ "" ∧ config.TLSKey ≠ "" then
      { cfg with
        TLSConfig := some (TLSConfig.mk config.TLSCACert config.TLSCert config.TLSKey
          config.TLSInsecure) }
    else cfg
  emit (Event.newClient cfg)
  pure (env.NewClient cfg)

/-- The function `parseJob`: resolve the path, open the file, parse it, and
close the file when the function returns. -/
def parseJob (env : Env) (path : String) : Proc (Except Error Job) := do
  emit (Event.filepathAbs path)
  match env.Abs path with
  | Except.error err => pure (Except.error err)
  | Except.ok path =>
    emit (Event.osOpen path)
    match env.Open path with
    | Except.error err => pure (Except.error err)
    | Except.ok f =>
      emit (Event.jobspecParse f)
      let r := env.Parse f
      emit (Event.fileClose f)
      pure r

/-- The inner loop of `checkJobStatus`: `for _, alloc := range allocationList`
with the `switch` on the client status as its body.  The elements are pointers
and the body reads `alloc.JobID` first, so a nil element panics there. -/
def checkJobStatus_scan (icinga : Icinga) (jobID : String) :
    List (Option Allocation) → Proc Unit
  | [] => pure ()
  | p :: rest => do
    let alloc ← deref p
    if alloc.JobID = jobID then
      if alloc.ClientStatus = "complete" then
        icinga.WARNING "Job %s is completed" [Value.str alloc.JobID]
      else if alloc.ClientStatus = "running" then
        icinga.OK "Job %s running successfully" [Value.str alloc.JobID]
      else if alloc.ClientStatus = "failed" then
        icinga.CRITICAL "%s Job failed" [Value.str alloc.JobID]
      else pure ()
    checkJobStatus_scan icinga jobID rest

/-- The outer loop `for { ... }` of `checkJobStatus`, from iteration `i` on, with
a budget of `fuel` iterations.  `float64(timeout)` is taken as the exact value
of `timeout`. -/
def checkJobStatus_loop (env : Env) (jobID : String) (timeout : Int) (icinga : Icinga) :
    Nat → Nat → Proc Unit
  | 0, _ => outOfFuel
  | fuel + 1, i => do
    if env.Since i > (timeout : ℚ) then
      icinga.CRITICAL "Job timed out" []
    emit Event.allocationsList
    let allocationList := (env.List i).1
    let err := (env.List i).2
    if err ≠ none then
      icinga.CRITICAL "Error getting allocations: %v" [Value.ofError err]
    checkJobStatus_scan icinga jobID allocationList
    emit Event.sleep
    checkJobStatus_loop env jobID timeout icinga fuel (i + 1)

/-- The function `checkJobStatus`. -/
def checkJobStatus (env : Env) (_client : Option Client) (jobID : String) (timeout : Int)
    (icinga : Icinga) (fuel : Nat) : Proc Unit :=
  checkJobStatus_loop env jobID timeout icinga fuel 0

/-- The function `main`, after `parseConfig`; `fuel` bounds the number of
iterations of the polling loop. -/
def main (env : Env) (config : Config) (fuel : Nat) : Proc Unit := do
  let r ← createNomadClient env config
  let nomad := valueOf r
  let err := errorOf r
  let icinga : Icinga := {}
  if err ≠ none then
    icinga.CRITICAL "Error creating Nomad client: %v" [Value.ofError err]
  let r ← parseJob env config.JobFilePath
  let job := valueOf r
  let err := errorOf r
  if err ≠ none then
    icinga.CRITICAL "Error parsing job specification: %v" [Value.ofError err]
  if config.CheckOnly = "" then
    let _jobs ← deref nomad
    let j ← deref job
    emit (Event.deregister j.ID true)
    let _ := env.Deregister j.ID true
    emit (Event.register j)
    let err := env.Register j
    if err ≠ none then
      icinga.CRITICAL "Error registering job: %v" [Value.ofError err]
  if config.CheckOnly = "" then
    let j ← deref job
    checkJobStatus env nomad j.ID config.Timeout icinga fuel
  else
    checkJobStatus env nomad config.CheckOnly config.Timeout icinga fuel
  icinga.UNKNOWN "Unsupported status message" []

/-! ## Specification-side definitions -/

/-- An allocation that ends a scan: it belongs to the tracked job and its client
status is one of the three the `switch` names. -/
def decisive (jobID : String) (a : Allocation) : Bool :=
  decide (a.JobID = jobID ∧
    (a.ClientStatus = "complete" ∨ a.ClientStatus = "running" ∨ a.ClientStatus = "failed"))

/-- The exit code announced for a decisive allocation: WARNING for "complete",
OK for "running", CRITICAL otherwise ("failed"). -/
def verdictCode (a : Allocation) : Int :=
  if a.ClientStatus = "complete" then WARNING
  else if a.ClientStatus = "running" then OK
  else CRITICAL

/-- The line printed for a decisive allocation. -/
def verdictLine (a : Allocation) : String :=
  if a.ClientStatus = "complete" then "WARNING: Job " ++ a.JobID ++ " is completed\n"
  else if a.ClientStatus = "running" then "OK: Job " ++ a.JobID ++ " running successfully\n"
  else "CRITICAL: " ++ a.JobID ++ " Job failed\n"

/-- The outcome of one scan as the first decisive allocation of the list
determines it: no verdict when there is none, its verdict otherwise. -/
def scanByFirstDecisive (jobID : String) (l : List Allocation) (w : World) : Res Unit :=
  match l.find? (decisive jobID) with
  | none => Res.ok () w
  | some a => Res.exit (verdictCode a) (w ++ [Event.printf (verdictLine a)])

/-- An iteration of the polling loop that ends in the sleep: the timeout has not
passed, the query succeeded, and every element of the answer is an allocation
(not nil) that is not decisive. -/
def quietIteration (env : Env) (jobID : String) (timeout : Int) (i : Nat) : Prop :=
  ¬ (env.Since i > (timeout : ℚ)) ∧ (env.List i).2 = none ∧
    ∀ p ∈ (env.List i).1, Option.map (decisive jobID) p = some false

instance (env : Env) (jobID : String) (timeout : Int) (i : Nat) :
    Decidable (quietIteration env jobID timeout i) := by
  unfold quietIteration
  infer_instance

/-- The events of `n` iterations that each end in the sleep. -/
def quietTrace : Nat → World
  | 0 => []
  | n + 1 => Event.allocationsList :: Event.sleep :: quietTrace n

/-- The pairs of exit code and level name of the monitoring convention. -/
def levelTable : List (Int × String) :=
  [(0, "OK"), (1, "WARNING"), (2, "CRITICAL"), (3, "UNKNOWN")]

/-- The outcome of a run that has exited with one of the codes of `codes` right
after its only write to standard output, the level of that code followed by a
message, or is still polling, having written nothing, or has panicked, having
written nothing, in a situation described by `nilEntry`. -/
def SingleVerdict (codes : List Int) (nilEntry : Prop) (w : World) (r : Res Unit) : Prop :=
  (∃ code msg pre, r = Res.exit code
      (w ++ pre ++ [Event.printf (statusToString code ++ ": " ++ msg ++ "\n")]) ∧
      stdout pre = [] ∧ code ∈ codes) ∨
  (∃ pre, r = Res.spin (w ++ pre) ∧ stdout pre = []) ∨
  (∃ pre, r = Res.panic (w ++ pre) ∧ stdout pre = [] ∧ nilEntry)

/-- The text on standard output: what the writes of the log put there, in order. -/
def output (w : World) : String := String.join (stdout w)

/-- The number of newline characters of a text, that is the number of lines of
a text in which every line is ended by a newline. -/
def newlines (s : String) : Nat := s.toList.count '\n'

/-! ## Concrete environments and configurations -/

/-- An environment in which every call succeeds, the job file describes the job
"web", the clock reads `i` seconds at iteration `i`, and every allocation
query answers with a pending and then a running allocation of "web". -/
def envWeb : Env :=
  { DefaultConfig := { Address := "http://127.0.0.1:4646", TLSConfig := none }
    NewClient := fun cfg => Except.ok { cfg := cfg }
    Abs := fun p => Except.ok ("/abs/" ++ p)
    Open := fun p => Except.ok p
    Parse := fun _ => Except.ok { ID := "web" }
    Deregister := fun _ _ => none
    Register := fun _ => none
    List := fun _ =>
      ([some { JobID := "web", ClientStatus := "pending" },
        some { JobID := "web", ClientStatus := "running" }], none)
    Since := fun i => (i : ℚ) }

/-- An error value used in the examples. -/
def errBoom : Error := { typ := "*errors.errorString", msg := "boom" }

/-- The default configuration of `parseConfig` with a timeout of 2 seconds. -/
def cfgSubmit : Config :=
  { Addr := "http://127.0.0.1:4646", TLSCert := "", TLSKey := "", TLSCACert := "",
    TLSInsecure := false, Timeout := 2, JobFilePath := "test.nomad", CheckOnly := "" }

/-- The configuration `cfgSubmit` in check-only mode for the job "web". -/
def cfgCheck : Config := { cfgSubmit with CheckOnly := "web" }

/-- The environment `envWeb` with other allocation answers: first a pending
allocation of "web" alone; from the second query on an allocation of another
job, then a complete one of "web", then a running one of "web". -/
def envCompleteFirst : Env :=
  { envWeb with
    List := fun i =>
      if i = 0 then ([some { JobID := "web", ClientStatus := "pending" }], none)
      else ([some { JobID := "db", ClientStatus := "running" },
             some { JobID := "web", ClientStatus := "complete" },
             some { JobID := "web", ClientStatus := "running" }], none) }

/-- The environment `envWeb` in which every allocation query answers with an
empty list. -/
def envIdle : Env := { envWeb with List := fun _ => ([], none) }

/-- The environment `envWeb` in which the first allocation query fails, while
also handing back a list with a running allocation of "web". -/
def envQueryFails : Env :=
  { envWeb with
    List := fun _ => ([some { JobID := "web", ClientStatus := "running" }], some errBoom) }

/-- The environment `envWeb` in which the deregister call returns an error. -/
def envDeregisterFails : Env := { envWeb with Deregister := fun _ _ => some errBoom }

/-- The environment `envWeb` in which the register call returns an error. -/
def envRegisterFails : Env := { envWeb with Register := fun _ => some errBoom }

/-- The environment `envWeb` in which the job file cannot be opened. -/
def envNoJobFile : Env :=
  { envWeb with
    Open := fun _ => Except.error
      { typ := "*fs.PathError", msg := "open /abs/test.nomad: no such file or directory" } }

/-- The environment `envWeb` in which the job file does not parse and the
parser reports its errors in a text of several lines. -/
def envManyLines : Env :=
  { envWeb with
    Parse := fun _ => Except.error
      { typ := "*multierror.Error"
        msg := "2 error(s) occurred:\n\n* job: invalid key: foo\n* job: invalid key: bar" } }

/-- The environment `envWeb` in which the first allocation query answers with a
list whose only element is a nil pointer. -/
def envNilEntry : Env := { envWeb with List := fun _ => ([none], none) }

/-! ## Lemmas on the run monad and on formatting -/

theorem bind_apply {α β : Type} (m : Proc α) (f : α → Proc β) (w : World) :
    (m >>= f) w = match m w with
      | Res.ok a w1 => f a w1
      | Res.exit code w1 => Res.exit code w1
      | Res.panic w1 => Res.panic w1
      | Res.spin w1 => Res.spin w1 := rfl

theorem pure_apply {α : Type} (a : α) (w : World) : (pure a : Proc α) w = Res.ok a w := rfl

theorem if_apply {α : Type} (c : Prop) [Decidable c] (m1 m2 : Proc α) (w : World) :
    (if c then m1 else m2) w = if c then m1 w else m2 w := by
  split <;> rfl

theorem stdout_append (w1 w2 : World) : stdout (w1 ++ w2) = stdout w1 ++ stdout w2 := by
  induction w1 with
  | nil => rfl
  | cons e w1 ih => cases e <;> simp [stdout, ih]

theorem stdout_quietTrace (n : Nat) : stdout (quietTrace n) = [] := by
  induction n with
  | zero => rfl
  | succ n ih => simpa [quietTrace, stdout] using ih

theorem quietTrace_snoc (n : Nat) :
    quietTrace n ++ [Event.allocationsList, Event.sleep] = quietTrace (n + 1) := by
  induction n with
  | zero => rfl
  | succ n ih => simp only [quietTrace, List.cons_append, ih]

theorem Sprintf_level_message (l m : String) :
    Sprintf "%s: %s\n" [Value.str l, Value.str m] = l ++ ": " ++ m ++ "\n" := by
  apply String.ext
  simp [Sprintf, sprintfAux, formatOperand, Value.text]

theorem Sprintf_completed (s : String) :
    Sprintf "Job %s is completed" [Value.str s] = "Job " ++ s ++ " is completed" := by
  apply String.ext
  simp [Sprintf, sprintfAux, formatOperand, Value.text]

theorem Sprintf_running (s : String) :
    Sprintf "Job %s running successfully" [Value.str s]
      = "Job " ++ s ++ " running successfully" := by
  apply String.ext
  simp [Sprintf, sprintfAux, formatOperand, Value.text]

theorem Sprintf_failed (s : String) :
    Sprintf "%s Job failed" [Value.str s] = s ++ " Job failed" := by
  apply String.ext
  simp [Sprintf, sprintfAux, formatOperand, Value.text]

theorem Sprintf_allocations (e : Error) :
    Sprintf "Error getting allocations: %v" [Value.err e]
      = "Error getting allocations: " ++ e.msg := by
  apply String.ext
  simp [Sprintf, sprintfAux, formatOperand, Value.text]

theorem Sprintf_registering (e : Error) :
    Sprintf "Error registering job: %v" [Value.err e]
      = "Error registering job: " ++ e.msg := by
  apply String.ext
  simp [Sprintf, sprintfAux, formatOperand, Value.text]

theorem Sprintf_timed_out : Sprintf "Job timed out" [] = "Job timed out" := by
  decide

theorem nilErrorOperand_false (a : List Value) : nilErrorOperand a = false := by
  cases a with
  | nil => rfl
  | cons a0 _ => cases a0 <;> rfl

/-- The report helper always prints the level with the message and exits: its
guard asks for an operand that is an `error` and is nil, and no operand is both. -/
theorem reportStatus_exit (n : Icinga) (code : Int) (format : String) (a : List Value)
    (w : World) :
    n.reportStatus code format a w = Res.exit code
      (w ++ [Event.printf (statusToString code ++ ": " ++ Sprintf format a ++ "\n")]) := by
  simp [Icinga.reportStatus, nilErrorOperand_false, Printf, Sprintf_level_message, emit,
    osExit, bind_apply]

/-! ## One scan of an allocation list -/

theorem scan_nil (icinga : Icinga) (jobID : String) (w : World) :
    checkJobStatus_scan icinga jobID [] w = Res.ok () w := rfl

theorem scan_cons_none (icinga : Icinga) (jobID : String) (rest : List (Option Allocation))
    (w : World) : checkJobStatus_scan icinga jobID (none :: rest) w = Res.panic w := by
  simp [checkJobStatus_scan, bind_apply, deref]

theorem scan_cons_skip (icinga : Icinga) (jobID : String) (a : Allocation)
    (rest : List (Option Allocation)) (w : World) (h : decisive jobID a = false) :
    checkJobStatus_scan icinga jobID (some a :: rest) w
      = checkJobStatus_scan icinga jobID rest w := by
  simp only [decisive, decide_eq_false_iff_not, not_and, not_or] at h
  by_cases hid : a.JobID = jobID
  · obtain ⟨h1, h2, h3⟩ := h hid
    simp [checkJobStatus_scan, bind_apply, deref, Proc.pure, hid, h1, h2, h3, pure_apply]
  · simp [checkJobStatus_scan, bind_apply, deref, Proc.pure, hid, pure_apply]

theorem scan_cons_decisive (icinga : Icinga) (jobID : String) (a : Allocation)
    (rest : List (Option Allocation)) (w : World) (h : decisive jobID a = true) :
    checkJobStatus_scan icinga jobID (some a :: rest) w
      = Res.exit (verdictCode a) (w ++ [Event.printf (verdictLine a)]) := by
  simp only [decisive, decide_eq_true_eq] at h
  obtain ⟨hid, hs⟩ := h
  by_cases h1 : a.ClientStatus = "complete"
  · simp [checkJobStatus_scan, bind_apply, deref, Proc.pure, hid, h1, Icinga.WARNING,
      reportStatus_exit, Sprintf_completed, verdictCode, verdictLine, statusToString,
      WARNING, OK]
    apply String.ext
    simp
  · by_cases h2 : a.ClientStatus = "running"
    · simp [checkJobStatus_scan, bind_apply, deref, Proc.pure, hid, h2, Icinga.OK,
        reportStatus_exit, Sprintf_running, verdictCode, verdictLine, statusToString, OK]
      apply String.ext
      simp
    · have h3 : a.ClientStatus = "failed" := by tauto
      simp [checkJobStatus_scan, bind_apply, deref, Proc.pure, hid, h3, Icinga.CRITICAL,
        reportStatus_exit, Sprintf_failed, verdictCode, verdictLine, statusToString, OK,
        WARNING, CRITICAL]
      apply String.ext
      simp

theorem scan_eq_scanByFirstDecisive (icinga : Icinga) (jobID : String) (l : List Allocation)
    (w : World) :
    checkJobStatus_scan icinga jobID (l.map some) w = scanByFirstDecisive jobID l w := by
  induction l with
  | nil => rfl
  | cons a rest ih =>
    rw [List.map_cons]
    cases h : decisive jobID a with
    | false => rw [scan_cons_skip icinga jobID a _ w h, ih]; simp [scanByFirstDecisive, h]
    | true => rw [scan_cons_decisive icinga jobID a _ w h]; simp [scanByFirstDecisive, h]

theorem scan_append_skip (icinga : Icinga) (jobID : String) (pre : List Allocation)
    (l : List (Option Allocation)) (w : World) (h : ∀ x ∈ pre, decisive jobID x = false) :
    checkJobStatus_scan icinga jobID (pre.map some ++ l) w
      = checkJobStatus_scan icinga jobID l w := by
  induction pre with
  | nil => rfl
  | cons a pre ih =>
    rw [List.map_cons, List.cons_append,
      scan_cons_skip icinga jobID a _ w (h a (List.mem_cons_self a pre))]
    exact ih (fun x hx => h x (List.mem_cons_of_mem a hx))

/-- A scan returns to the loop exactly when every element of the list is an
allocation, not nil, that is not decisive. -/
theorem scan_ok_iff (icinga : Icinga) (jobID : String) (l : List (Option Allocation))
    (w : World) :
    checkJobStatus_scan icinga jobID l w = Res.ok () w ↔
      ∀ p ∈ l, Option.map (decisive jobID) p = some false := by
  induction l with
  | nil => simp [scan_nil]
  | cons p rest ih =>
    cases p with
    | none => simp [scan_cons_none]
    | some a =>
      cases h : decisive jobID a with
      | false => rw [scan_cons_skip icinga jobID a rest w h, ih]; simp [h]
      | true => rw [scan_cons_decisive icinga jobID a rest w h]; simp [h]

theorem scan_quiet (icinga : Icinga) (jobID : String) (l : List (Option Allocation))
    (w : World) (h : ∀ p ∈ l, Option.map (decisive jobID) p = some false) :
    checkJobStatus_scan icinga jobID l w = Res.ok () w :=
  (scan_ok_iff icinga jobID l w).mpr h

theorem scan_map_ok_iff (icinga : Icinga) (jobID : String) (l : List Allocation) (w : World) :
    checkJobStatus_scan icinga jobID (l.map some) w = Res.ok () w ↔
      ∀ x ∈ l, decisive jobID x = false := by
  rw [scan_ok_iff]
  simp

/-! ## One iteration of the polling loop -/

theorem loop_zero (env : Env) (jobID : String) (timeout : Int) (icinga : Icinga) (i : Nat)
    (w : World) : checkJobStatus_loop env jobID timeout icinga 0 i w = Res.spin w := rfl

theorem loop_timeout (env : Env) (jobID : String) (timeout : Int) (icinga : Icinga)
    (fuel i : Nat) (w : World) (h : env.Since i > (timeout : ℚ)) :
    checkJobStatus_loop env jobID timeout icinga (fuel + 1) i w
      = Res.exit 2 (w ++ [Event.printf "CRITICAL: Job timed out\n"]) := by
  simp [checkJobStatus_loop, bind_apply, h, Icinga.CRITICAL, reportStatus_exit,
    Sprintf_timed_out, statusToString, CRITICAL, OK, WARNING]

theorem loop_error (env : Env) (jobID : String) (timeout : Int) (icinga : Icinga)
    (fuel i : Nat) (w : World) (e : Error) (h : ¬ env.Since i > (timeout : ℚ))
    (he : (env.List i).2 = some e) :
    checkJobStatus_loop env jobID timeout icinga (fuel + 1) i w
      = Res.exit 2 (w ++ [Event.allocationsList,
          Event.printf ("CRITICAL: Error getting allocations: " ++ e.msg ++ "\n")]) := by
  simp [checkJobStatus_loop, bind_apply, h, he, Icinga.CRITICAL, reportStatus_exit, emit,
    pure_apply, Value.ofError, Sprintf_allocations, statusToString, CRITICAL, OK, WARNING]
  apply String.ext
  simp

theorem loop_scan (env : Env) (jobID : String) (timeout : Int) (icinga : Icinga)
    (fuel i : Nat) (w : World) (h : ¬ env.Since i > (timeout : ℚ))
    (he : (env.List i).2 = none) :
    checkJobStatus_loop env jobID timeout icinga (fuel + 1) i w
      = match checkJobStatus_scan icinga jobID (env.List i).1 (w ++ [Event.allocationsList]) with
        | Res.ok _ w1 => checkJobStatus_loop env jobID timeout icinga fuel (i + 1)
            (w1 ++ [Event.sleep])
        | Res.exit code w1 => Res.exit code w1
        | Res.panic w1 => Res.panic w1
        | Res.spin w1 => Res.spin w1 := by
  simp only [checkJobStatus_loop, bind_apply, h, he, emit, pure_apply, if_false, ne_eq,
    not_true_eq_false]
  cases checkJobStatus_scan icinga jobID (env.List i).1 (w ++ [Event.allocationsList]) <;> rfl

theorem loop_quiet_step (env : Env) (jobID : String) (timeout : Int) (icinga : Icinga)
    (fuel i : Nat) (w : World) (h : quietIteration env jobID timeout i) :
    checkJobStatus_loop env jobID timeout icinga (fuel + 1) i w
      = checkJobStatus_loop env jobID timeout icinga fuel (i + 1)
          (w ++ [Event.allocationsList, Event.sleep]) := by
  obtain ⟨h1, h2, h3⟩ := h
  rw [loop_scan env jobID timeout icinga fuel i w h1 h2, scan_quiet icinga jobID _ _ h3]
  simp

theorem loop_decisive (env : Env) (jobID : String) (timeout : Int) (icinga : Icinga)
    (fuel i : Nat) (w : World) (pre : List Allocation) (post : List (Option Allocation))
    (a : Allocation) (h : ¬ env.Since i > (timeout : ℚ))
    (hl : env.List i = (pre.map some ++ some a :: post, none))
    (hpre : ∀ x ∈ pre, decisive jobID x = false) (ha : decisive jobID a = true) :
    checkJobStatus_loop env jobID timeout icinga (fuel + 1) i w
      = Res.exit (verdictCode a)
          (w ++ [Event.allocationsList, Event.printf (verdictLine a)]) := by
  rw [loop_scan env jobID timeout icinga fuel i w h (by rw [hl]), hl,
    scan_append_skip icinga jobID pre _ _ hpre, scan_cons_decisive icinga jobID a post _ ha]
  simp

/-! ## Several iterations -/

theorem loop_quiet_run (env : Env) (jobID : String) (timeout : Int) (icinga : Icinga)
    (n : Nat) : ∀ (fuel i : Nat) (w : World),
      (∀ j, i ≤ j → j < i + n → quietIteration env jobID timeout j) →
      checkJobStatus_loop env jobID timeout icinga (n + fuel) i w
        = checkJobStatus_loop env jobID timeout icinga fuel (i + n) (w ++ quietTrace n) := by
  induction n with
  | zero => intro fuel i w _; simp [quietTrace]
  | succ n ih =>
    intro fuel i w h
    have h0 : quietIteration env jobID timeout i := h i (le_refl i) (by omega)
    have e1 : n + 1 + fuel = (n + fuel) + 1 := by omega
    rw [e1, loop_quiet_step env jobID timeout icinga (n + fuel) i w h0,
      ih fuel (i + 1) _ (fun j hj1 hj2 => h j (by omega) (by omega))]
    have e2 : i + 1 + n = i + (n + 1) := by omega
    rw [e2]
    simp [quietTrace]

theorem checkJobStatus_quiet_run (env : Env) (client : Option Client) (jobID : String)
    (timeout : Int) (icinga : Icinga) (n fuel : Nat) (w : World)
    (h : ∀ j, j < n → quietIteration env jobID timeout j) :
    checkJobStatus env client jobID timeout icinga (n + fuel) w
      = checkJobStatus_loop env jobID timeout icinga fuel n (w ++ quietTrace n) := by
  have := loop_quiet_run env jobID timeout icinga n fuel 0 w
    (fun j _ hj => h j (by omega))
  simpa [checkJobStatus] using this

theorem scan_singleVerdict (icinga : Icinga) (jobID : String) (l : List (Option Allocation))
    (w : World) :
    checkJobStatus_scan icinga jobID l w = Res.ok () w ∨
      (∃ code msg, checkJobStatus_scan icinga jobID l w
        = Res.exit code (w ++ [Event.printf (statusToString code ++ ": " ++ msg ++ "\n")]) ∧
        code ∈ [0, 1, 2]) ∨
      (checkJobStatus_scan icinga jobID l w = Res.panic w ∧ none ∈ l) := by
  induction l with
  | nil => left; rfl
  | cons p rest ih =>
    cases p with
    | none => right; right; exact ⟨scan_cons_none icinga jobID rest w, by simp⟩
    | some a =>
      cases h : decisive jobID a with
      | false =>
        rw [scan_cons_skip icinga jobID a rest w h]
        rcases ih with h1 | h1 | ⟨h1, h2⟩
        · left; exact h1
        · right; left; exact h1
        · right; right; exact ⟨h1, List.mem_cons_of_mem _ h2⟩
      | true =>
        right; left
        rw [scan_cons_decisive icinga jobID a rest w h]
        simp only [decisive, decide_eq_true_eq] at h
        obtain ⟨_, hs⟩ := h
        by_cases h1 : a.ClientStatus = "complete"
        · refine ⟨1, "Job " ++ a.JobID ++ " is completed", ?_, by simp⟩
          simp [verdictCode, verdictLine, h1, statusToString, WARNING, OK]
          apply String.ext
          simp
        · by_cases h2 : a.ClientStatus = "running"
          · refine ⟨0, "Job " ++ a.JobID ++ " running successfully", ?_, by simp⟩
            simp [verdictCode, verdictLine, h2, statusToString, OK]
            apply String.ext
            simp
          · refine ⟨2, a.JobID ++ " Job failed", ?_, by simp⟩
            simp [verdictCode, verdictLine, h1, h2, statusToString, OK, WARNING, CRITICAL]
            apply String.ext
            simp

theorem loop_singleVerdict (env : Env) (jobID : String) (timeout : Int) (icinga : Icinga)
    (fuel : Nat) : ∀ (i : Nat) (w : World),
      SingleVerdict [0, 1, 2] (∃ j, none ∈ (env.List j).1) w
        (checkJobStatus_loop env jobID timeout icinga fuel i w) := by
  induction fuel with
  | zero => intro i w; right; left; exact ⟨[], by simp [loop_zero], rfl⟩
  | succ fuel ih =>
    intro i w
    by_cases ht : env.Since i > (timeout : ℚ)
    · left
      refine ⟨2, "Job timed out", [], ?_, rfl, by simp⟩
      rw [loop_timeout env jobID timeout icinga fuel i w ht]
      simp [statusToString, OK, WARNING, CRITICAL]
    · cases he : (env.List i).2 with
      | some e =>
        left
        refine ⟨2, "Error getting allocations: " ++ e.msg, [Event.allocationsList], ?_, rfl,
          by simp⟩
        rw [loop_error env jobID timeout icinga fuel i w e ht he]
        simp [statusToString, OK, WARNING, CRITICAL]
        apply String.ext
        simp
      | none =>
        rw [loop_scan env jobID timeout icinga fuel i w ht he]
        rcases scan_singleVerdict icinga jobID (env.List i).1 (w ++ [Event.allocationsList])
          with h | ⟨code, msg, h, hc⟩ | ⟨h, hnil⟩
        · rw [h]
          rcases ih (i + 1) (w ++ [Event.allocationsList] ++ [Event.sleep])
            with ⟨code, msg, pre, h1, h2, h3⟩ | ⟨pre, h1, h2⟩ | ⟨pre, h1, h2, h3⟩
          · left
            refine ⟨code, msg, Event.allocationsList :: Event.sleep :: pre, ?_, ?_, h3⟩
            · simp only [h1]; simp
            · simpa [stdout] using h2
          · right; left
            refine ⟨Event.allocationsList :: Event.sleep :: pre, ?_, ?_⟩
            · simp only [h1]; simp
            · simpa [stdout] using h2
          · right; right
            refine ⟨Event.allocationsList :: Event.sleep :: pre, ?_, ?_, h3⟩
            · simp only [h1]; simp
            · simpa [stdout] using h2
        · left
          rw [h]
          exact ⟨code, msg, [Event.allocationsList], by simp, rfl, hc⟩
        · right; right
          rw [h]
          exact ⟨[Event.allocationsList], by simp, rfl, i, hnil⟩

/-! ## The whole program -/

theorem createNomadClient_apply (env : Env) (config : Config) (w : World) :
    createNomadClient env config w
      = Res.ok
          (env.NewClient
            { Address := config.Addr
              TLSConfig :=
                if config.TLSCert ≠ "" ∧ config.TLSKey ≠ "" then
                  some (TLSConfig.mk config.TLSCACert config.TLSCert config.TLSKey
                    config.TLSInsecure)
                else env.DefaultConfig.TLSConfig })
          (w ++ [Event.newClient
            { Address := config.Addr
              TLSConfig :=
                if config.TLSCert ≠ "" ∧ config.TLSKey ≠ "" then
                  some (TLSConfig.mk config.TLSCACert config.TLSCert config.TLSKey
                    config.TLSInsecure)
                else env.DefaultConfig.TLSConfig }]) := by
  by_cases h : config.TLSCert ≠ "" ∧ config.TLSKey ≠ ""
  · simp [createNomadClient, bind_apply, emit, pure_apply, h]
  · simp only [createNomadClient, bind_apply, emit, pure_apply, h, if_false]

theorem parseJob_abs_error (env : Env) (path : String) (w : World) (e : Error)
    (h : env.Abs path = Except.error e) :
    parseJob env path w = Res.ok (Except.error e) (w ++ [Event.filepathAbs path]) := by
  simp [parseJob, bind_apply, emit, pure_apply, h]

theorem parseJob_open_error (env : Env) (path p : String) (w : World) (e : Error)
    (h : env.Abs path = Except.ok p) (ho : env.Open p = Except.error e) :
    parseJob env path w
      = Res.ok (Except.error e) (w ++ [Event.filepathAbs path, Event.osOpen p]) := by
  simp [parseJob, bind_apply, emit, pure_apply, h, ho]

theorem parseJob_opened (env : Env) (path p f : String) (w : World)
    (h : env.Abs path = Except.ok p) (ho : env.Open p = Except.ok f) :
    parseJob env path w
      = Res.ok (env.Parse f) (w ++ [Event.filepathAbs path, Event.osOpen p,
          Event.jobspecParse f, Event.fileClose f]) := by
  simp [parseJob, bind_apply, emit, pure_apply, h, ho]

theorem parseJob_shape (env : Env) (path : String) (w : World) :
    ∃ r pre, parseJob env path w = Res.ok r (w ++ pre) ∧ stdout pre = [] ∧
      Event.allocationsList ∉ pre := by
  cases h1 : env.Abs path with
  | error e => exact ⟨_, _, parseJob_abs_error env path w e h1, rfl, by simp⟩
  | ok p =>
    cases h2 : env.Open p with
    | error e => exact ⟨_, _, parseJob_open_error env path p w e h1 h2, rfl, by simp⟩
    | ok f => exact ⟨_, _, parseJob_opened env path p f w h1 h2, rfl, by simp⟩

theorem main_client_failed (env : Env) (config : Config) (fuel : Nat) (w w1 : World)
    (e : Error) (hc : createNomadClient env config w = Res.ok (Except.error e) w1) :
    main env config fuel w = Res.exit 2 (w1 ++ [Event.printf (statusToString 2 ++ ": "
        ++ Sprintf "Error creating Nomad client: %v" [Value.err e] ++ "\n")]) := by
  simp [main, bind_apply, hc, errorOf, Icinga.CRITICAL, reportStatus_exit, Value.ofError,
    CRITICAL]

theorem main_parse_failed (env : Env) (config : Config) (fuel : Nat) (w w1 w2 : World)
    (c : Client) (e : Error)
    (hc : createNomadClient env config w = Res.ok (Except.ok c) w1)
    (hp : parseJob env config.JobFilePath w1 = Res.ok (Except.error e) w2) :
    main env config fuel w = Res.exit 2 (w2 ++ [Event.printf (statusToString 2 ++ ": "
        ++ Sprintf "Error parsing job specification: %v" [Value.err e] ++ "\n")]) := by
  simp [main, bind_apply, pure_apply, if_apply, hc, hp, errorOf, Icinga.CRITICAL,
    reportStatus_exit, Value.ofError, CRITICAL]

theorem main_register_failed (env : Env) (config : Config) (fuel : Nat) (w w1 w2 : World)
    (c : Client) (job : Job) (e : Error)
    (hc : createNomadClient env config w = Res.ok (Except.ok c) w1)
    (hp : parseJob env config.JobFilePath w1 = Res.ok (Except.ok job) w2)
    (hm : config.CheckOnly = "") (hr : env.Register job = some e) :
    main env config fuel w = Res.exit 2 (w2 ++ [Event.deregister job.ID true,
        Event.register job, Event.printf (statusToString 2 ++ ": "
          ++ Sprintf "Error registering job: %v" [Value.err e] ++ "\n")]) := by
  simp [main, bind_apply, pure_apply, if_apply, hc, hp, hm, hr, errorOf, valueOf, deref,
    Proc.pure, emit, Icinga.CRITICAL, reportStatus_exit, Value.ofError, CRITICAL]

theorem main_submitted (env : Env) (config : Config) (fuel : Nat) (w w1 w2 : World)
    (c : Client) (job : Job)
    (hc : createNomadClient env config w = Res.ok (Except.ok c) w1)
    (hp : parseJob env config.JobFilePath w1 = Res.ok (Except.ok job) w2)
    (hm : config.CheckOnly = "") (hr : env.Register job = none) :
    main env config fuel w
      = (checkJobStatus env (some c) job.ID config.Timeout {} fuel >>= fun _ =>
          Icinga.UNKNOWN {} "Unsupported status message" [])
          (w2 ++ [Event.deregister job.ID true, Event.register job]) := by
  simp [main, bind_apply, pure_apply, if_apply, hc, hp, hm, hr, errorOf, valueOf, deref,
    Proc.pure, emit]

theorem main_check_mode (env : Env) (config : Config) (fuel : Nat) (w w1 w2 : World)
    (c : Client) (job : Job)
    (hc : createNomadClient env config w = Res.ok (Except.ok c) w1)
    (hp : parseJob env config.JobFilePath w1 = Res.ok (Except.ok job) w2)
    (hm : config.CheckOnly ≠ "") :
    main env config fuel w
      = (checkJobStatus env (some c) config.CheckOnly config.Timeout {} fuel >>= fun _ =>
          Icinga.UNKNOWN {} "Unsupported status message" []) w2 := by
  simp [main, bind_apply, pure_apply, if_apply, hc, hp, hm, errorOf, valueOf]

/-- The polling never returns to its caller, so what follows it is never run. -/
theorem checkJobStatus_then (env : Env) (client : Option Client) (jobID : String)
    (timeout : Int) (icinga : Icinga) (fuel : Nat) (k : Unit → Proc Unit) (w : World) :
    (checkJobStatus env client jobID timeout icinga fuel >>= k) w
      = checkJobStatus env client jobID timeout icinga fuel w := by
  rw [bind_apply]
  rcases loop_singleVerdict env jobID timeout icinga fuel 0 w
    with ⟨code, msg, pre, h, _, _⟩ | ⟨pre, h, _⟩ | ⟨pre, h, _⟩
  · simp only [checkJobStatus, h]
  · simp only [checkJobStatus, h]
  · simp only [checkJobStatus, h]

theorem SingleVerdict_extend (codes : List Int) (nilEntry : Prop) (w pre : World)
    (r : Res Unit) (hpre : stdout pre = []) (h : SingleVerdict codes nilEntry (w ++ pre) r) :
    SingleVerdict codes nilEntry w r := by
  rcases h with ⟨code, msg, p, h1, h2, h3⟩ | ⟨p, h1, h2⟩ | ⟨p, h1, h2, h3⟩
  · left
    exact ⟨code, msg, pre ++ p, by simp [h1], by simp [stdout_append, hpre, h2], h3⟩
  · right; left
    exact ⟨pre ++ p, by simp [h1], by simp [stdout_append, hpre, h2]⟩
  · right; right
    exact ⟨pre ++ p, by simp [h1], by simp [stdout_append, hpre, h2], h3⟩

theorem main_singleVerdict (env : Env) (config : Config) (fuel : Nat) (w : World) :
    SingleVerdict [0, 1, 2] (∃ j, none ∈ (env.List j).1) w (main env config fuel w) := by
  obtain ⟨r, cfg, hc⟩ : ∃ r cfg, createNomadClient env config w
      = Res.ok r (w ++ [Event.newClient cfg]) := ⟨_, _, createNomadClient_apply env config w⟩
  cases r with
  | error e =>
    rw [main_client_failed env config fuel w _ e hc]
    left
    exact ⟨2, Sprintf "Error creating Nomad client: %v" [Value.err e], [Event.newClient cfg],
      by simp, rfl, by simp⟩
  | ok c =>
    obtain ⟨r, pre, hp, hpre, _⟩ := parseJob_shape env config.JobFilePath (w ++ [Event.newClient cfg])
    apply SingleVerdict_extend _ _ w ([Event.newClient cfg] ++ pre) _
      (by simp [stdout_append, hpre, stdout])
    rw [← List.append_assoc]
    cases r with
    | error e =>
      rw [main_parse_failed env config fuel w _ _ c e hc hp]
      left
      exact ⟨2, Sprintf "Error parsing job specification: %v" [Value.err e], [], by simp, rfl,
        by simp⟩
    | ok job =>
      by_cases hm : config.CheckOnly = ""
      · cases hr : env.Register job with
        | some e =>
          rw [main_register_failed env config fuel w _ _ c job e hc hp hm hr]
          left
          exact ⟨2, Sprintf "Error registering job: %v" [Value.err e],
            [Event.deregister job.ID true, Event.register job], by simp, rfl, by simp⟩
        | none =>
          rw [main_submitted env config fuel w _ _ c job hc hp hm hr, checkJobStatus_then]
          apply SingleVerdict_extend _ _ _ [Event.deregister job.ID true, Event.register job]
            _ rfl
          exact loop_singleVerdict env job.ID config.Timeout {} fuel 0 _
      · rw [main_check_mode env config fuel w _ _ c job hc hp hm, checkJobStatus_then]
        exact loop_singleVerdict env config.CheckOnly config.Timeout {} fuel 0 _

/-! ## The claims -/

/-- C1. In an iteration that has not timed out and whose query succeeded, reached
after `n` iterations that ended in the sleep, if the first allocation in list
order whose job ID is the tracked one has status "complete" the program exits 1
with a WARNING line, if "running" it exits 0 with an OK line, if "failed" it
exits 2 with a CRITICAL line, whatever the elements after it are (allocations
of any job and status, or nil pointers). -/
theorem checkJobStatus_first_match_verdict (env : Env) (client : Option Client)
    (jobID : String) (timeout : Int) (icinga : Icinga) (n fuel : Nat) (w : World)
    (pre : List Allocation) (post : List (Option Allocation)) (a : Allocation)
    (hquiet : ∀ j, j < n → quietIteration env jobID timeout j)
    (ht : ¬ env.Since n > (timeout : ℚ))
    (hl : env.List n = (pre.map some ++ some a :: post, none))
    (hpre : ∀ x ∈ pre, x.JobID ≠ jobID) (ha : a.JobID = jobID) :
    (a.ClientStatus = "complete" →
      checkJobStatus env client jobID timeout icinga (n + (fuel + 1)) w
        = Res.exit 1 (w ++ quietTrace n ++ [Event.allocationsList,
            Event.printf ("WARNING: Job " ++ jobID ++ " is completed\n")])) ∧
    (a.ClientStatus = "running" →
      checkJobStatus env client jobID timeout icinga (n + (fuel + 1)) w
        = Res.exit 0 (w ++ quietTrace n ++ [Event.allocationsList,
            Event.printf ("OK: Job " ++ jobID ++ " running successfully\n")])) ∧
    (a.ClientStatus = "failed" →
      checkJobStatus env client jobID timeout icinga (n + (fuel + 1)) w
        = Res.exit 2 (w ++ quietTrace n ++ [Event.allocationsList,
            Event.printf ("CRITICAL: " ++ jobID ++ " Job failed\n")])) := by
  have hpre2 : ∀ x ∈ pre, decisive jobID x = false := by
    intro x hx
    simp [decisive, hpre x hx]
  have key : ∀ hd : decisive jobID a = true,
      checkJobStatus env client jobID timeout icinga (n + (fuel + 1)) w
        = Res.exit (verdictCode a)
            (w ++ quietTrace n ++ [Event.allocationsList, Event.printf (verdictLine a)]) := by
    intro hd
    rw [checkJobStatus_quiet_run env client jobID timeout icinga n (fuel + 1) w hquiet,
      loop_decisive env jobID timeout icinga fuel n _ pre post a ht hl hpre2 hd]
  refine ⟨fun h => ?_, fun h => ?_, fun h => ?_⟩
  · rw [key (by simp [decisive, ha, h])]
    simp [verdictCode, verdictLine, h, ha, WARNING]
  · rw [key (by simp [decisive, ha, h])]
    simp [verdictCode, verdictLine, h, ha, OK]
  · rw [key (by simp [decisive, ha, h])]
    simp [verdictCode, verdictLine, h, ha, CRITICAL]

/-- C1, at a concrete input: the first answer holds only a pending allocation of
"web"; the second holds an allocation of another job, then a complete one of
"web", then a running one of "web". The verdict is WARNING. -/
theorem checkJobStatus_first_match_verdict_witness :
    checkJobStatus envCompleteFirst none "web" 5 {} 2 []
      = Res.exit 1 [Event.allocationsList, Event.sleep, Event.allocationsList,
          Event.printf "WARNING: Job web is completed\n"] :=
  (checkJobStatus_first_match_verdict envCompleteFirst none "web" 5 {} 1 0 []
    [{ JobID := "db", ClientStatus := "running" }]
    [some { JobID := "web", ClientStatus := "running" }]
    { JobID := "web", ClientStatus := "complete" }
    (by
      intro j hj
      have : j = 0 := by omega
      subst this
      refine ⟨by simp [envCompleteFirst, envWeb], rfl, ?_⟩
      intro p hp
      simp [envCompleteFirst] at hp
      subst hp
      decide)
    (by simp [envCompleteFirst, envWeb]) rfl (by simp) rfl).1 rfl

theorem loop_spin (env : Env) (jobID : String) (timeout : Int) (icinga : Icinga)
    (fuel i : Nat) (w : World)
    (h : ∀ j, i ≤ j → j < i + fuel → quietIteration env jobID timeout j) :
    checkJobStatus_loop env jobID timeout icinga fuel i w = Res.spin (w ++ quietTrace fuel) := by
  have := loop_quiet_run env jobID timeout icinga fuel 0 i w h
  simpa [loop_zero] using this

/-- C2. When every query succeeds, every element of every answer is an allocation
of another job than the tracked one and the clock advances by at least one
second per iteration, there is an iteration `n`, the first whose elapsed time
exceeds the timeout strictly, such that the loop is still polling with any budget up to `n` iterations and, with
any larger budget, exits 2 after `n` sleeps with the line
"CRITICAL: Job timed out"; the elapsed time is then at least the timeout. -/
theorem checkJobStatus_times_out (env : Env) (client : Option Client) (jobID : String)
    (timeout : Int) (icinga : Icinga)
    (hq : ∀ i, (env.List i).2 = none)
    (hn : ∀ i, ∀ p ∈ (env.List i).1, ∃ x, p = some x ∧ x.JobID ≠ jobID)
    (hclock : ∀ i, env.Since i + 1 ≤ env.Since (i + 1)) :
    ∃ n, env.Since n > (timeout : ℚ) ∧ (∀ i, i < n → env.Since i ≤ (timeout : ℚ)) ∧
      (∀ fuel w, fuel ≤ n →
        checkJobStatus env client jobID timeout icinga fuel w
          = Res.spin (w ++ quietTrace fuel)) ∧
      (∀ fuel w, n < fuel →
        checkJobStatus env client jobID timeout icinga fuel w
          = Res.exit 2 (w ++ quietTrace n ++ [Event.printf "CRITICAL: Job timed out\n"])) ∧
      (timeout : ℚ) ≤ env.Since n := by
  have hgrow : ∀ i : Nat, env.Since 0 + (i : ℚ) ≤ env.Since i := by
    intro i
    induction i with
    | zero => simp
    | succ i ih =>
      have := hclock i
      push_cast
      linarith
  have hex : ∃ n : Nat, env.Since n > (timeout : ℚ) := by
    obtain ⟨m, hm⟩ := exists_nat_gt ((timeout : ℚ) - env.Since 0)
    exact ⟨m, by have := hgrow m; linarith⟩
  classical
  refine ⟨Nat.find hex, Nat.find_spec hex, ?_, ?_, ?_, le_of_lt (Nat.find_spec hex)⟩
  · intro i hi
    exact not_lt.mp (Nat.find_min hex hi)
  · intro fuel w hf
    apply loop_spin
    intro j _ hj
    refine ⟨Nat.find_min hex (by omega), hq j, ?_⟩
    intro p hp
    obtain ⟨x, rfl, hx⟩ := hn j p hp
    simp [decisive, hx]
  · intro fuel w hf
    obtain ⟨k, rfl⟩ : ∃ k, fuel = Nat.find hex + (k + 1) := ⟨fuel - Nat.find hex - 1, by omega⟩
    rw [checkJobStatus_quiet_run env client jobID timeout icinga (Nat.find hex) (k + 1) w,
      loop_timeout env jobID timeout icinga k _ _ (Nat.find_spec hex)]
    intro j hj
    refine ⟨Nat.find_min hex hj, hq j, ?_⟩
    intro p hp
    obtain ⟨x, rfl, hx⟩ := hn j p hp
    simp [decisive, hx]

/-- C2, at a concrete input: empty answers, a clock that reads `i` seconds at
iteration `i`, and a timeout of 2 seconds. -/
theorem checkJobStatus_times_out_witness :
    ∃ n, envIdle.Since n > ((2 : Int) : ℚ) ∧
      (∀ i, i < n → envIdle.Since i ≤ ((2 : Int) : ℚ)) ∧
      (∀ fuel w, fuel ≤ n →
        checkJobStatus envIdle none "web" 2 {} fuel w = Res.spin (w ++ quietTrace fuel)) ∧
      (∀ fuel w, n < fuel →
        checkJobStatus envIdle none "web" 2 {} fuel w
          = Res.exit 2 (w ++ quietTrace n ++ [Event.printf "CRITICAL: Job timed out\n"])) ∧
      ((2 : Int) : ℚ) ≤ envIdle.Since n :=
  checkJobStatus_times_out envIdle none "web" 2 {} (fun _ => rfl)
    (fun i x hx => by simp [envIdle] at hx)
    (fun i => by simp [envIdle, envWeb])

/-- C3. When the allocation query of an iteration that has not timed out returns
an error, the program exits 2 with the line "CRITICAL: Error getting
allocations: " followed by the text of the error, whatever list came back with
the error. -/
theorem checkJobStatus_query_error (env : Env) (client : Option Client) (jobID : String)
    (timeout : Int) (icinga : Icinga) (n fuel : Nat) (w : World) (e : Error)
    (hquiet : ∀ j, j < n → quietIteration env jobID timeout j)
    (ht : ¬ env.Since n > (timeout : ℚ))
    (he : (env.List n).2 = some e) :
    checkJobStatus env client jobID timeout icinga (n + (fuel + 1)) w
      = Res.exit 2 (w ++ quietTrace n ++ [Event.allocationsList,
          Event.printf ("CRITICAL: Error getting allocations: " ++ e.msg ++ "\n")]) := by
  rw [checkJobStatus_quiet_run env client jobID timeout icinga n (fuel + 1) w hquiet,
    loop_error env jobID timeout icinga fuel n _ e ht he]

/-- C3, at a concrete input: the failing query hands back a running allocation
of the tracked job together with the error, and the verdict is CRITICAL. -/
theorem checkJobStatus_query_error_witness :
    checkJobStatus envQueryFails none "web" 2 {} 1 []
      = Res.exit 2 [Event.allocationsList,
          Event.printf "CRITICAL: Error getting allocations: boom\n"] :=
  checkJobStatus_query_error envQueryFails none "web" 2 {} 0 0 [] errBoom
    (fun j hj => absurd hj (Nat.not_lt_zero j))
    (by simp [envQueryFails, envWeb]) rfl

theorem loop_congr (env env2 : Env) (jobID : String) (timeout : Int) (icinga : Icinga)
    (hl : env2.List = env.List) (hs : env2.Since = env.Since) (fuel : Nat) :
    ∀ (i : Nat) (w : World),
      checkJobStatus_loop env2 jobID timeout icinga fuel i w
        = checkJobStatus_loop env jobID timeout icinga fuel i w := by
  induction fuel with
  | zero => intro i w; rfl
  | succ fuel ih =>
    intro i w
    have e : checkJobStatus_loop env2 jobID timeout icinga fuel (i + 1)
        = checkJobStatus_loop env jobID timeout icinga fuel (i + 1) := funext (ih (i + 1))
    simp only [checkJobStatus_loop, hl, hs, e]

theorem createNomadClient_shape (env : Env) (config : Config) (w : World) :
    ∃ r cfg, createNomadClient env config w = Res.ok r (w ++ [Event.newClient cfg]) :=
  ⟨_, _, createNomadClient_apply env config w⟩

/-- C4, counterexample: the deregister call returns an error, the register call
succeeds, and the program goes on to poll and exits 0 with an OK line. -/
theorem main_deregister_error_not_fatal :
    envDeregisterFails.Deregister "web" true = some errBoom ∧ cfgSubmit.CheckOnly = "" ∧
    main envDeregisterFails cfgSubmit 1 []
      = Res.exit 0 [Event.newClient { Address := "http://127.0.0.1:4646", TLSConfig := none },
          Event.filepathAbs "test.nomad", Event.osOpen "/abs/test.nomad",
          Event.jobspecParse "/abs/test.nomad", Event.fileClose "/abs/test.nomad",
          Event.deregister "web" true, Event.register { ID := "web" },
          Event.allocationsList, Event.printf "OK: Job web running successfully\n"] := by
  decide

/-- C4, amended. The answer of the deregister call is discarded: the run is the
same for every answer it may give. Outside check-only mode, with a client built
and a job file that parses, an error of the register call ends the program with
exit code 2 and the line "CRITICAL: Error registering job: " followed by the
text of the error, and no allocation query is made; when the register call
succeeds the run goes on with the polling of the job just registered. -/
theorem main_register_error_fatal (env : Env) (config : Config) (fuel : Nat) :
    (∀ (d : String → Bool → Option Error) (w : World),
      main { env with Deregister := d } config fuel w = main env config fuel w) ∧
    ∀ (c : Client) (job : Job) (w1 w2 : World),
      config.CheckOnly = "" →
      createNomadClient env config [] = Res.ok (Except.ok c) w1 →
      parseJob env config.JobFilePath w1 = Res.ok (Except.ok job) w2 →
      (∀ e : Error, env.Register job = some e →
        main env config fuel []
          = Res.exit 2 (w2 ++ [Event.deregister job.ID true, Event.register job,
              Event.printf ("CRITICAL: Error registering job: " ++ e.msg ++ "\n")]) ∧
        Event.allocationsList ∉ w2 ++ [Event.deregister job.ID true, Event.register job,
              Event.printf ("CRITICAL: Error registering job: " ++ e.msg ++ "\n")]) ∧
      (env.Register job = none →
        main env config fuel []
          = checkJobStatus env (some c) job.ID config.Timeout {} fuel
              (w2 ++ [Event.deregister job.ID true, Event.register job])) := by
  refine ⟨?_, ?_⟩
  · intro d w
    have e1 : ∀ jobID, checkJobStatus_loop { env with Deregister := d } jobID config.Timeout {}
        fuel 0 = checkJobStatus_loop env jobID config.Timeout {} fuel 0 := by
      intro jobID
      funext w0
      exact loop_congr env { env with Deregister := d } jobID config.Timeout {} rfl rfl fuel 0 w0
    simp only [main, createNomadClient, parseJob, checkJobStatus, e1]
  · intro c job w1 w2 hm hc hp
    refine ⟨fun e hr => ⟨?_, ?_⟩, fun hr => ?_⟩
    · rw [main_register_failed env config fuel [] w1 w2 c job e hc hp hm hr,
        Sprintf_registering]
      simp [statusToString, OK, WARNING, CRITICAL]
      apply String.ext
      simp
    · obtain ⟨r, cfg, hc2⟩ := createNomadClient_shape env config []
      obtain ⟨r2, pre, hp2, _, hpre⟩ := parseJob_shape env config.JobFilePath w1
      rw [hc] at hc2
      rw [hp] at hp2
      injection hc2 with _ hw1
      injection hp2 with _ hw2
      subst hw1
      subst hw2
      simp [hpre]
    · rw [main_submitted env config fuel [] w1 w2 c job hc hp hm hr, checkJobStatus_then]

/-- C4 amended, at a concrete input: the register call fails for the job "web". -/
theorem main_register_error_fatal_witness :
    main envRegisterFails cfgSubmit 3 []
      = Res.exit 2 [Event.newClient { Address := "http://127.0.0.1:4646", TLSConfig := none },
          Event.filepathAbs "test.nomad", Event.osOpen "/abs/test.nomad",
          Event.jobspecParse "/abs/test.nomad", Event.fileClose "/abs/test.nomad",
          Event.deregister "web" true, Event.register { ID := "web" },
          Event.printf "CRITICAL: Error registering job: boom\n"] :=
  (((main_register_error_fatal envRegisterFails cfgSubmit 3).2
    { cfg := { Address := "http://127.0.0.1:4646", TLSConfig := none } } { ID := "web" }
    [Event.newClient { Address := "http://127.0.0.1:4646", TLSConfig := none }]
    [Event.newClient { Address := "http://127.0.0.1:4646", TLSConfig := none },
      Event.filepathAbs "test.nomad", Event.osOpen "/abs/test.nomad",
      Event.jobspecParse "/abs/test.nomad", Event.fileClose "/abs/test.nomad"]
    rfl rfl rfl).1 errBoom rfl).1

/-- C5, the code at the failing input: in check-only mode for the job "web", with
the same allocation answers, the run ends with CRITICAL when the job file cannot
be opened and with OK when it parses; in both runs the job file is resolved and
opened before any polling. -/
theorem main_checkOnly_still_parses_job_file :
    cfgCheck.CheckOnly = "web" ∧
    main envNoJobFile cfgCheck 1 []
      = Res.exit 2 [Event.newClient { Address := "http://127.0.0.1:4646", TLSConfig := none },
          Event.filepathAbs "test.nomad", Event.osOpen "/abs/test.nomad",
          Event.printf ("CRITICAL: Error parsing job specification: "
            ++ "open /abs/test.nomad: no such file or directory\n")] ∧
    main envWeb cfgCheck 1 []
      = Res.exit 0 [Event.newClient { Address := "http://127.0.0.1:4646", TLSConfig := none },
          Event.filepathAbs "test.nomad", Event.osOpen "/abs/test.nomad",
          Event.jobspecParse "/abs/test.nomad", Event.fileClose "/abs/test.nomad",
          Event.allocationsList, Event.printf "OK: Job web running successfully\n"] := by
  decide

theorem statusToString_level (code : Int) (h : code ∈ [0, 1, 2]) :
    (code, statusToString code) ∈ levelTable := by
  simp only [List.mem_cons, List.mem_singleton, List.not_mem_nil, or_false] at h
  rcases h with rfl | rfl | rfl <;> decide

theorem newlines_append (s t : String) : newlines (s ++ t) = newlines s + newlines t := by
  simp [newlines, List.count_append]

theorem newlines_statusToString (code : Int) : newlines (statusToString code) = 0 := by
  unfold statusToString
  split_ifs <;> decide

theorem newlines_report (code : Int) (msg : String) :
    newlines (statusToString code ++ ": " ++ msg ++ "\n") = newlines msg + 1 := by
  have h1 : newlines ": " = 0 := by decide
  have h2 : newlines "\n" = 1 := by decide
  rw [newlines_append, newlines_append, newlines_append, newlines_statusToString, h1, h2]
  omega

theorem output_single (pre : World) (s : String) (h : stdout pre = []) :
    output (pre ++ [Event.printf s]) = s := by
  simp [output, stdout_append, h, stdout, String.join]

/-- C6, counterexample: a job file whose parse error is a text of several lines
ends the run with one write that puts four lines on standard output; and an
allocation list with a nil element ends the run in a panic with nothing on
standard output. -/
theorem main_output_of_several_lines_or_none :
    main envManyLines cfgSubmit 1 []
      = Res.exit 2 [Event.newClient { Address := "http://127.0.0.1:4646", TLSConfig := none },
          Event.filepathAbs "test.nomad", Event.osOpen "/abs/test.nomad",
          Event.jobspecParse "/abs/test.nomad", Event.fileClose "/abs/test.nomad",
          Event.printf ("CRITICAL: Error parsing job specification: 2 error(s) occurred:\n\n"
            ++ "* job: invalid key: foo\n* job: invalid key: bar\n")] ∧
    newlines (output (main envManyLines cfgSubmit 1 []).log) = 4 ∧
    main envNilEntry cfgSubmit 1 []
      = Res.panic [Event.newClient { Address := "http://127.0.0.1:4646", TLSConfig := none },
          Event.filepathAbs "test.nomad", Event.osOpen "/abs/test.nomad",
          Event.jobspecParse "/abs/test.nomad", Event.fileClose "/abs/test.nomad",
          Event.deregister "web" true, Event.register { ID := "web" },
          Event.allocationsList] ∧
    output (main envNilEntry cfgSubmit 1 []).log = "" := by
  decide

/-- C6, amended. Every run of the program is of one of three kinds. It has exited
right after its only write to standard output, the text made of a level, a
colon, a blank, a message and a newline, with the exit code that belongs to the
level (0 = OK, 1 = WARNING, 2 = CRITICAL, 3 = UNKNOWN); that text has one line
more than the message has newlines, so it is one line exactly when the message
has none. Or it is still polling and has written nothing. Or it has panicked,
having written nothing, and some allocation list holds a nil element. It never
returns from `main`. -/
theorem main_one_write_then_exit (env : Env) (config : Config) (fuel : Nat) :
    (∃ code level msg pre,
      main env config fuel []
        = Res.exit code (pre ++ [Event.printf (level ++ ": " ++ msg ++ "\n")]) ∧
      stdout pre = [] ∧
      output (pre ++ [Event.printf (level ++ ": " ++ msg ++ "\n")])
        = level ++ ": " ++ msg ++ "\n" ∧
      newlines (level ++ ": " ++ msg ++ "\n") = newlines msg + 1 ∧
      (code, level) ∈ levelTable) ∨
    (∃ w, main env config fuel [] = Res.spin w ∧ stdout w = []) ∨
    (∃ w, main env config fuel [] = Res.panic w ∧ stdout w = [] ∧
      ∃ i, none ∈ (env.List i).1) := by
  rcases main_singleVerdict env config fuel []
    with ⟨code, msg, pre, h, hpre, hc⟩ | ⟨pre, h, hpre⟩ | ⟨pre, h, hpre, hnil⟩
  · left
    exact ⟨code, statusToString code, msg, pre, by simpa using h, hpre,
      output_single pre _ hpre, newlines_report code msg, statusToString_level code hc⟩
  · right; left
    exact ⟨pre, by simpa using h, hpre⟩
  · right; right
    exact ⟨pre, by simpa using h, hpre, hnil⟩

/-- C7. The configuration that `createNomadClient` hands to `api.NewClient` has the
configured address; its TLS configuration is the one made of the configured CA
certificate, client certificate, client key and insecure flag when both the
certificate and the key are non-empty, and is the one of the library default,
untouched, in every other case. -/
theorem createNomadClient_config (env : Env) (config : Config) (w : World) :
    ∃ cfg, createNomadClient env config w
        = Res.ok (env.NewClient cfg) (w ++ [Event.newClient cfg]) ∧
      cfg.Address = config.Addr ∧
      cfg.TLSConfig =
        if config.TLSCert ≠ "" ∧ config.TLSKey ≠ "" then
          some { CACert := config.TLSCACert, ClientCert := config.TLSCert,
                 ClientKey := config.TLSKey, Insecure := config.TLSInsecure }
        else env.DefaultConfig.TLSConfig :=
  ⟨_, createNomadClient_apply env config w, rfl, rfl⟩

/-- C8, counterexample: the first allocation of the tracked job is pending and a
later one is running; the scan does not stay without a verdict, it exits 0 with
an OK line. -/
theorem scan_pending_then_running :
    checkJobStatus_scan {} "web"
        [some { JobID := "web", ClientStatus := "pending" },
         some { JobID := "web", ClientStatus := "running" }] []
      = Res.exit 0 [Event.printf "OK: Job web running successfully\n"] := by
  decide

/-- C8, amended. When the first allocation of the tracked job has a status other
than "complete", "running" and "failed", the scan goes on: its outcome is the
outcome of scanning the elements after that one, and it ends without a verdict
exactly when every one of them is an allocation that is not one of the tracked
job with one of the three statuses. -/
theorem scan_first_match_other_status (icinga : Icinga) (jobID : String)
    (pre : List Allocation) (post : List (Option Allocation)) (a : Allocation) (w : World)
    (hpre : ∀ x ∈ pre, x.JobID ≠ jobID) (ha : a.JobID = jobID)
    (h1 : a.ClientStatus ≠ "complete") (h2 : a.ClientStatus ≠ "running")
    (h3 : a.ClientStatus ≠ "failed") :
    checkJobStatus_scan icinga jobID (pre.map some ++ some a :: post) w
        = checkJobStatus_scan icinga jobID post w ∧
      (checkJobStatus_scan icinga jobID (pre.map some ++ some a :: post) w = Res.ok () w ↔
        ∀ p ∈ post, ∃ x, p = some x ∧ ¬ (x.JobID = jobID ∧ (x.ClientStatus = "complete" ∨
          x.ClientStatus = "running" ∨ x.ClientStatus = "failed"))) := by
  have hskip : ∀ x ∈ pre ++ [a], decisive jobID x = false := by
    intro x hx
    rcases List.mem_append.mp hx with hx | hx
    · simp [decisive, hpre x hx]
    · simp only [List.mem_singleton] at hx
      subst hx
      simp [decisive, h1, h2, h3]
  have e : checkJobStatus_scan icinga jobID (pre.map some ++ some a :: post) w
      = checkJobStatus_scan icinga jobID post w := by
    have := scan_append_skip icinga jobID (pre ++ [a]) post w hskip
    simpa using this
  refine ⟨e, ?_⟩
  rw [e, scan_ok_iff]
  constructor
  · intro h p hp
    cases p with
    | none => simpa using h none hp
    | some x => exact ⟨x, rfl, by simpa [decisive] using h (some x) hp⟩
  · intro h p hp
    obtain ⟨x, rfl, hx⟩ := h p hp
    simpa [decisive] using hx

/-- C8 amended, at a concrete input: a pending allocation of "web" followed by a
failed one gives the verdict of the failed one. -/
theorem scan_first_match_other_status_witness :
    checkJobStatus_scan {} "web"
        ([some { JobID := "db", ClientStatus := "failed" }] ++
          some { JobID := "web", ClientStatus := "pending" } ::
          [some { JobID := "web", ClientStatus := "failed" }]) []
      = checkJobStatus_scan {} "web" [some { JobID := "web", ClientStatus := "failed" }] [] :=
  (scan_first_match_other_status {} "web" [{ JobID := "db", ClientStatus := "failed" }]
    [some { JobID := "web", ClientStatus := "failed" }]
    { JobID := "web", ClientStatus := "pending" } [] (by decide) rfl (by decide) (by decide)
    (by decide)).1

/-- C9. The polling never returns to its caller, and no run of the program exits
with the code UNKNOWN (3): the final UNKNOWN report of `main` is never reached. -/
theorem main_never_unknown (env : Env) (config : Config) (fuel : Nat) :
    (∀ (client : Option Client) (jobID : String) (timeout : Int) (icinga : Icinga)
        (w w1 : World),
      checkJobStatus env client jobID timeout icinga fuel w ≠ Res.ok () w1) ∧
    (∀ w, main env config fuel [] ≠ Res.exit UNKNOWN w) := by
  constructor
  · intro client jobID timeout icinga w w1 h
    rcases loop_singleVerdict env jobID timeout icinga fuel 0 w
      with ⟨code, msg, pre, h1, _, _⟩ | ⟨pre, h1, _⟩ | ⟨pre, h1, _⟩
    · rw [checkJobStatus, h1] at h
      cases h
    · rw [checkJobStatus, h1] at h
      cases h
    · rw [checkJobStatus, h1] at h
      cases h
  · intro w h
    rcases main_singleVerdict env config fuel []
      with ⟨code, msg, pre, h1, _, hc⟩ | ⟨pre, h1, _⟩ | ⟨pre, h1, _⟩
    · rw [h1] at h
      injection h with hcode _
      subst hcode
      simp [UNKNOWN] at hc
    · rw [h1] at h
      cases h
    · rw [h1] at h
      cases h

theorem scan_filter (icinga : Icinga) (jobID : String) (l : List Allocation) (w : World) :
    checkJobStatus_scan icinga jobID ((l.filter (decisive jobID)).map some) w
      = checkJobStatus_scan icinga jobID (l.map some) w := by
  induction l with
  | nil => rfl
  | cons a rest ih =>
    cases h : decisive jobID a with
    | false =>
      rw [List.filter_cons_of_neg (by simp [h]), List.map_cons,
        scan_cons_skip icinga jobID a _ w h, ih]
    | true =>
      rw [List.filter_cons_of_pos h, List.map_cons, List.map_cons,
        scan_cons_decisive icinga jobID a _ w h, scan_cons_decisive icinga jobID a _ w h]

/-- C10. The outcome of one scan of a list of allocations is the one determined by
the first allocation of the list that belongs to the tracked job and has status
"complete", "running" or "failed" (WARNING, OK, CRITICAL); the scan ends
without a verdict exactly when the list has no such allocation; and two lists
that agree once every other allocation is removed give the same outcome. -/
theorem scan_first_decisive (icinga : Icinga) (jobID : String) (l : List Allocation)
    (w : World) :
    checkJobStatus_scan icinga jobID (l.map some) w = scanByFirstDecisive jobID l w ∧
    (checkJobStatus_scan icinga jobID (l.map some) w = Res.ok () w ↔
      ∀ x ∈ l, ¬ (x.JobID = jobID ∧ (x.ClientStatus = "complete" ∨
        x.ClientStatus = "running" ∨ x.ClientStatus = "failed"))) ∧
    (∀ l2 : List Allocation, l2.filter (decisive jobID) = l.filter (decisive jobID) →
      checkJobStatus_scan icinga jobID (l2.map some) w
        = checkJobStatus_scan icinga jobID (l.map some) w) := by
  refine ⟨scan_eq_scanByFirstDecisive icinga jobID l w, ?_, ?_⟩
  · rw [scan_map_ok_iff]
    simp [decisive]
  · intro l2 h
    rw [← scan_filter icinga jobID l2 w, h, scan_filter]

end NomadCheck
